import Mathlib

/-
Verification of the configuration discovery, precedence and merge engine of the
service-container builder (src/lib/Builder.js: `Builder` and `Definition`).

The JavaScript source is shallowly embedded below.  Notable points of fidelity:

* `Builder.prototype.buildContainer` calls `this.findServiceJsonFiles(rootdirectory)`
  with the `level` argument omitted, so inside the walk `level` is `undefined` and
  `level + 1` is `NaN`.  Levels are therefore modelled by `JSNum` with `undef` and
  `nan` constructors, and JavaScript `<` on them (`jsLt`) is `false` whenever either
  side is not a number.
* The file-system walk is modelled on an explicit directory tree (`FSEntry`), with a
  fuel argument so that the recursion is structural and computable; the walk itself
  has no failure modes in the model (a filesystem error is fatal in the source and no
  claim concerns it).
* `Array.prototype.sort` is invoked with a comparator that returns booleans
  (coerced to 1/0 and never negative).  ECMAScript leaves the result of such an
  inconsistent comparator implementation-defined; the model uses the classical
  stable insertion sort driven by that comparator ("shift the inserted element left
  past every `y` with `comparator(y, x) > 0`"), which matches the historical engine
  behaviour for the short arrays at issue and the comparator's documented intent.
  With the levels actually produced by `buildContainer` every comparison is `false`,
  and then the model (like any stable sort with an all-zero comparator) is the
  identity.
* `require` (the configuration loader) is modelled by a pure map
  `String → Option ConfigRecord`; `parseFile` returns the ordered list of sink
  emissions (`setParameter` / `set` calls), or `none` when a load fails or the
  recursion on imports exceeds its fuel.  In the source a load failure throws and the
  partially filled container is discarded by the caller, so successful runs are
  observationally identical.
* The container itself is not part of src/.  The `Sink` structure is modelled from
  the spec: `setParameter(name, value)` and `set(name, definition)` are
  last-write-wins registrations.
-/

namespace SC

/-- JavaScript numeric values that can appear in a descriptor's `level` field.
`undef` is `undefined` (the root call omits the argument), `nan` is `NaN`
(`undefined + 1`). -/
inductive JSNum where
  | undef
  | nan
  | num (n : Nat)
deriving DecidableEq

/-- JavaScript `x + 1` on a level: `undefined + 1 = NaN`, `NaN + 1 = NaN`. -/
def jsAdd1 : JSNum → JSNum
  | .undef => .nan
  | .nan => .nan
  | .num n => .num (n + 1)

/-- JavaScript `<` on levels: any comparison involving `undefined` or `NaN` is false. -/
def jsLt : JSNum → JSNum → Bool
  | .num a, .num b => a < b
  | _, _ => false

/-- Parsed JSON values (the configuration files are JSON, so `undefined` cannot occur
inside a loaded record). -/
inductive JSON where
  | null
  | bool (b : Bool)
  | num (n : Int)
  | str (s : String)
  | arr (elems : List JSON)
  | obj (fields : List (String × JSON))

/-- JavaScript truthiness of a JSON value. -/
def jsTruthy : JSON → Bool
  | .null => false
  | .bool b => b
  | .num n => !(n == 0)
  | .str s => !(s == "")
  | .arr _ => true
  | .obj _ => true

/-- Whether a JSON value is a string (`typeof v === 'string'`). -/
def isStr : JSON → Bool
  | .str _ => true
  | _ => false

/-- Substring test on character lists (JavaScript `indexOf(pat) !== -1`). -/
def strContainsAux (pat : List Char) : List Char → Bool
  | [] => pat.isEmpty
  | c :: cs => pat.isPrefixOf (c :: cs) || strContainsAux pat cs

/-- JavaScript `s.indexOf(pat) !== -1`. -/
def strContains (s pat : String) : Bool := strContainsAux pat.data s.data

/-- Suffix test, modelling the anchored regular expressions `pat$` used on file paths. -/
def strEndsWith (s suffix : String) : Bool := suffix.data.isSuffixOf s.data

/-- Replace the first occurrence of `pat` (a plain string pattern, as in
JavaScript `String.prototype.replace` with a string argument). -/
def replaceFirstAux (pat repl : List Char) : List Char → List Char
  | [] => []
  | c :: cs =>
    if pat.isPrefixOf (c :: cs) then repl ++ (c :: cs).drop pat.length
    else c :: replaceFirstAux pat repl cs

/-- JavaScript `s.replace(pat, repl)` with a string pattern (first occurrence only). -/
def replaceFirst (s pat repl : String) : String := ⟨replaceFirstAux pat.data repl.data s.data⟩

/-- JavaScript `file.replace(/\x2f[^\x2f]+\.json$/, '')`: drop a final path segment
of shape `/<nonempty>.json`; leave the string unchanged when the regex does not match. -/
def stripLastJsonSegment (s : String) : String :=
  let rev := s.data.reverse
  let segRev := rev.takeWhile (fun c => !(c == '/'))
  if segRev.length == rev.length then s
  else if ".json".data.isSuffixOf segRev.reverse && decide (6 ≤ segRev.length) then
    ⟨s.data.take (s.data.length - segRev.length - 1)⟩
  else s

/-- The builder options object.  `none` models an absent (hence `undefined`, falsy)
field; `env := none` also covers the documented default `env: false`, which is
likewise falsy and is only ever used through its truthiness. -/
structure Options where
  env : Option String
  ignoreNodeModulesDirectory : Option Bool
deriving DecidableEq

/-- Truthiness of `this.options.env`. -/
def envTruthy (o : Options) : Bool :=
  match o.env with
  | some s => !(s == "")
  | none => false

/-- Truthiness of `this.options.ignoreNodeModulesDirectory`. -/
def ignoreNodeModulesTruthy (o : Options) : Bool := o.ignoreNodeModulesDirectory.getD false

/-- The options installed by the `Builder` constructor:
`{env: false, ignoreNodeModulesDirectory: true}`. -/
def defaultOptions : Options := { env := none, ignoreNodeModulesDirectory := some true }

/-- A directory tree entry, the model of what `fs.readdirSync` plus `fs.statSync`
expose to the walk. -/
inductive FSEntry where
  | file (name : String)
  | dir (name : String) (entries : List FSEntry)

/-- A raw service record as authored in a configuration file (all fields optional;
`className` models the JS field `class`, a reserved word in Lean). -/
structure RawServiceRecord where
  className : Option JSON
  constructorMethod : Option JSON
  arguments : Option JSON
  calls : Option JSON
  properties : Option JSON
  isObject : Option JSON
  isFunction : Option JSON
  isSingleton : Option JSON
  tags : Option JSON

/-- The parsed content of one configuration file (`ns` models the JS field
`namespace`, a reserved word in Lean).  In the source an absent `imports`,
`parameters` or `services` field behaves exactly like an empty one (`for in`
over `undefined` performs no iterations), so those fields are plain lists. -/
structure ConfigRecord where
  ns : Option String
  «imports» : List String
  parameters : List (String × JSON)
  services : List (String × RawServiceRecord)

/-- A discovered or synthesized file descriptor, mirroring the objects pushed by
`findServiceJsonFiles` and built for imports by `parseFile`.  Import descriptors
carry `isEnvFile = false`, `isParamFile = false` and `config = none`, matching the
source object `{file, dir, level}` whose absent fields are `undefined` (falsy). -/
structure FileInfo where
  file : String
  dir : String
  level : JSNum
  isEnvFile : Bool
  isParamFile : Bool
  config : Option ConfigRecord

/-- The body of one iteration of the walk loop in
`Builder.prototype.findServiceJsonFiles`: recursion results (via `recur`) for a
non-pruned directory, a single descriptor for a file matching one of the three
patterns (tested in the source's order), nothing otherwise. -/
def walkStep (opts : Options) (recur : String → List FSEntry → JSNum → List FileInfo)
    (path : String) (level : JSNum) : FSEntry → List FileInfo
  | .dir name sub =>
    let filepath := path ++ "/" ++ name
    if !ignoreNodeModulesTruthy opts || !strContains filepath "node_modules" then
      recur filepath sub (jsAdd1 level)
    else []
  | .file name =>
    let filepath := path ++ "/" ++ name
    if strEndsWith filepath "services.json" then
      [{ file := filepath, dir := path, level := level, isEnvFile := false,
         isParamFile := false, config := none }]
    else if strEndsWith filepath "parameters.json" then
      [{ file := filepath, dir := path, level := level, isEnvFile := false,
         isParamFile := true, config := none }]
    else if envTruthy opts &&
        strEndsWith filepath ("services_" ++ opts.env.getD "" ++ ".json") then
      [{ file := filepath, dir := path, level := level, isEnvFile := true,
         isParamFile := false, config := none }]
    else []

/-- `Builder.prototype.findServiceJsonFiles`.  The fuel argument only bounds the
directory recursion so that the definition is structural; `buildContainer` passes
a fuel at least the tree height, and every claim quantifies over or fixes it.
Each loop iteration appends the `walkStep` result for its entry to the
accumulated list, mirroring the source's `concat`/`push` loop. -/
def findServiceJsonFiles (opts : Options) : Nat → String → List FSEntry → JSNum → List FileInfo
  | 0, _, _, _ => []
  | fuel + 1, path, entries, level =>
    entries.foldl (fun acc e =>
      acc ++ walkStep opts (fun p en lv => findServiceJsonFiles opts fuel p en lv) path level e) []

/-- The boolean comparator passed to `Array.prototype.sort` in
`sortFilesByHierarchy` (source: `return a.level < b.level` coerced to 1/0). -/
def sortFunc (a b : FileInfo) : Bool := jsLt a.level b.level

/-- One step of the insertion sort modelling `Array.prototype.sort` with the
boolean comparator: the inserted element moves left past exactly those elements
`z` with `sortFunc z x = true`, i.e. it lands immediately before the maximal
suffix on which the comparator orders everything after `x`. -/
def insertSorted (x : FileInfo) : List FileInfo → List FileInfo
  | [] => [x]
  | y :: ys =>
    if (y :: ys).all (fun z => sortFunc z x) then x :: y :: ys
    else y :: insertSorted x ys

/-- The model of `files.sort(sortFunc)`: classical stable insertion sort, elements
processed left to right. -/
def jsSort (files : List FileInfo) : List FileInfo :=
  files.foldl (fun acc x => insertSorted x acc) []

/-- Predicate for the `else` branch of the partition loop in
`sortFilesByHierarchy` (plain service files). -/
def isServiceKind (f : FileInfo) : Bool := !f.isEnvFile && !f.isParamFile

/-- Predicate for the `isEnvFile` branch of the partition loop. -/
def isEnvKind (f : FileInfo) : Bool := f.isEnvFile

/-- Predicate for the `isParamFile` branch of the partition loop (tested after
`isEnvFile` in the source). -/
def isParamKind (f : FileInfo) : Bool := !f.isEnvFile && f.isParamFile

/-- `Builder.prototype.sortFilesByHierarchy`: partition into non-env, env and
parameter files (single loop with the branch order `isEnvFile`, `isParamFile`,
else), sort the first two groups, and concatenate non-env ++ env ++ parameters. -/
def sortFilesByHierarchy (files : List FileInfo) : List FileInfo :=
  jsSort (files.filter isServiceKind) ++ jsSort (files.filter isEnvKind) ++
    files.filter isParamKind

/-- The normalized service definition entity (`Definition.js`).  `ns` models the
JS field `namespace`; `classLoaded` models the JS field `class`.  Fields of type
`Option JSON` use `none` for JavaScript `null`/`undefined` (the claims never
distinguish the two). -/
structure Definition where
  file : Option JSON
  ns : Option String
  rootDirectory : Option String
  classLoaded : Option JSON
  constructorMethod : Option JSON
  factoryClass : Option JSON
  arguments : Option JSON
  calls : Option JSON
  properties : Option JSON
  tags : JSON
  isSingleton : JSON
  isObject : Option JSON
  isFunction : Option JSON
  scope : Option JSON
  isPublic : Bool
  isSynthetic : Bool
  isAbstract : Bool
  configurator : Option JSON

/-- `new Definition()`: the field initialisation performed by the constructor. -/
def newDefinition : Definition :=
  { file := none, ns := none, rootDirectory := none, classLoaded := none,
    constructorMethod := none, factoryClass := none,
    arguments := some (.arr []), calls := some (.arr []), properties := some (.obj []),
    tags := .arr [], isSingleton := .bool false,
    isObject := some (.bool false), isFunction := some (.bool false),
    scope := none, isPublic := true, isSynthetic := false, isAbstract := false,
    configurator := none }

/-- `Builder.prototype.buildDefinition`: copy the raw fields verbatim, default
`isSingleton` to `true` exactly when the raw record has no such field
(`hasOwnProperty` check), and default `tags` to `[]` when `config.tags` is
absent or falsy (`config.tags || []`). -/
def buildDefinition (config : RawServiceRecord) (rootDirectory : String) (ns : String) :
    Definition :=
  { newDefinition with
    file := config.className,
    rootDirectory := some rootDirectory,
    constructorMethod := config.constructorMethod,
    arguments := config.arguments,
    calls := config.calls,
    properties := config.properties,
    isObject := config.isObject,
    isFunction := config.isFunction,
    isSingleton := config.isSingleton.getD (.bool true),
    tags := (match config.tags with
      | some t => if jsTruthy t then t else .arr []
      | none => .arr []),
    ns := some ns }

/-- One sink call: `container.setParameter(name, value)` or
`container.set(name, definition)`. -/
inductive Emission where
  | param (name : String) (value : JSON)
  | svc (name : String) (defn : Definition)

/-- The namespace computation at the top of `parseFile`: when the record declares
a truthy `namespace`, compose it onto the inherited one; otherwise keep the
inherited namespace. -/
def effectiveNs (inherited : String) (c : ConfigRecord) : String :=
  match c.ns with
  | some n => if n == "" then inherited else (if inherited == "" then n else inherited ++ "." ++ n)
  | none => inherited

/-- `modifiedNs = (namespace) ? namespace + '.' : ''`. -/
def modNs (ns : String) : String := if ns == "" then "" else ns ++ "."

/-- The import descriptor synthesized inside `parseFile`'s import loop, including
the path arithmetic (`replace(/^\.\.\x2f/, './../')`, prepend of the importing
directory with `replace('./', '/')`, and stripping of the final `.json` segment
for the directory).  The object `{file, dir, level}` lacks `isEnvFile`,
`isParamFile` and `config`, i.e. they are `undefined` (falsy). -/
def importDescriptor (fi : FileInfo) (imp : String) : FileInfo :=
  let f1 := if "../".data.isPrefixOf imp.data then "./../" ++ (⟨imp.data.drop 3⟩ : String) else imp
  let file := fi.dir ++ replaceFirst f1 "./" "/"
  let dir := stripLastJsonSegment file
  { file := file, dir := dir, level := fi.level, isEnvFile := false, isParamFile := false,
    config := none }

/-- The `setParameter` calls produced for the record's own `parameters` map, in
declared order, under the prefix `m = modifiedNs`. -/
def paramEmissions (m : String) (c : ConfigRecord) : List Emission :=
  c.parameters.map (fun p => .param (m ++ p.1) p.2)

/-- The `set` calls produced for the record's own `services` map, in declared
order — skipped entirely when the descriptor has a truthy `isParamFile`. -/
def serviceEmissions (fi : FileInfo) (m ns : String) (c : ConfigRecord) : List Emission :=
  if fi.isParamFile then []
  else c.services.map (fun p => .svc (m ++ p.1) (buildDefinition p.2 fi.dir ns))

/-- `config = fileinfo.config ? fileinfo.config : require(fileinfo.file)`. -/
def configOf (load : String → Option ConfigRecord) (fi : FileInfo) : Option ConfigRecord :=
  match fi.config with
  | some c => some c
  | none => load fi.file

/-- The import loop of `parseFile`: resolve each import in declared order with the
supplied parse function (the recursive `parseFile` at one less fuel), concatenating
their emissions; the first failure aborts (in the source it throws). -/
def parseImportsList (pf : FileInfo → String → Option (List Emission)) (fi : FileInfo)
    (ns : String) : List String → Option (List Emission)
  | [] => some []
  | imp :: rest =>
    match pf (importDescriptor fi imp) ns with
    | none => none
    | some t =>
      match parseImportsList pf fi ns rest with
      | none => none
      | some ts => some (t ++ ts)

/-- `Builder.prototype.parseFile`, as the ordered list of sink calls it performs:
the imports first (recursively), then the record's own parameters, then — unless
the descriptor is a parameter file — its own services.  `none` models a thrown
load error or fuel exhaustion on the import recursion. -/
def parseFile (load : String → Option ConfigRecord) : Nat → FileInfo → String →
    Option (List Emission)
  | 0, _, _ => none
  | fuel + 1, fi, inherited =>
    match configOf load fi with
    | none => none
    | some c =>
      let ns := effectiveNs inherited c
      let m := modNs ns
      match parseImportsList (fun fj nsj => parseFile load fuel fj nsj) fi ns c.imports with
      | none => none
      | some ti => some (ti ++ paramEmissions m c ++ serviceEmissions fi m ns c)

/-- Modelled from the spec: the container sink (src/ contains no Container
implementation).  `setParameter` and `set` are last-write-wins registrations of
parameters and definitions under fully-qualified names. -/
structure Sink where
  params : String → Option JSON
  svcs : String → Option Definition

/-- Modelled from the spec: a freshly constructed, empty container sink. -/
def emptySink : Sink := { params := fun _ => none, svcs := fun _ => none }

/-- Modelled from the spec: apply one sink call (later writes win). -/
def applyEmission (s : Sink) : Emission → Sink
  | .param n v => { s with params := fun k => if k == n then some v else s.params k }
  | .svc n d => { s with svcs := fun k => if k == n then some d else s.svcs k }

/-- Replay an emission trace into a sink, left to right. -/
def replaySink (s : Sink) (t : List Emission) : Sink := t.foldl applyEmission s

/-- The final value a trace assigns to parameter `n`, if any emission in the
trace sets it (the last one wins: later emissions take precedence via `Option.or`). -/
def finalParamValue (t : List Emission) (n : String) : Option JSON :=
  match t with
  | [] => none
  | .param k v :: rest => (finalParamValue rest n).or (if k == n then some v else none)
  | .svc _ _ :: rest => finalParamValue rest n

/-- Whether an emission is a `setParameter` call (as opposed to a `set` call). -/
def isParamEmission : Emission → Bool
  | .param _ _ => true
  | .svc _ _ => false

/-- The mutable state of a `Builder` instance that `buildContainer` reads and
writes: its `options` field. -/
structure BuilderState where
  options : Options

/-- The builder state right after `new Builder(...)`. -/
def initialBuilder : BuilderState := { options := defaultOptions }

/-- `Builder.prototype.buildContainer`.  `this.options = options || this.options`
(any provided object is truthy and replaces the stored options wholesale); the
walk starts with the `level` argument omitted, i.e. `undefined`; each sorted file
is parsed into the container with an `undefined` (hence empty) namespace.  The
result is the updated builder state and the populated sink (`none` when a parse
threw). -/
def buildContainer (load : String → Option ConfigRecord) (fsEntries : List FSEntry)
    (b : BuilderState) (rootdirectory : String) (options : Option Options) (fuel : Nat) :
    BuilderState × Option Sink :=
  let opts := options.getD b.options
  let files := sortFilesByHierarchy (findServiceJsonFiles opts fuel rootdirectory fsEntries .undef)
  let sink := files.foldl (fun s? fi =>
    match s? with
    | none => none
    | some s =>
      match parseFile load fuel fi "" with
      | none => none
      | some t => some (replaySink s t)) (some emptySink)
  ({ options := opts }, sink)

/-- The validity test in `Definition.prototype.addMethodCall`:
`!method || typeof method !== 'string'` fails exactly when the method name is not
a nonempty string. -/
def validMethod (m : JSON) : Bool := jsTruthy m && isStr m

/-- `Definition.prototype.addMethodCall`: append `[method, arg]` to `calls`, or
throw when the method name is empty or not a string (the `TypeError` branch
models `push` on a non-array `calls` value). -/
def addMethodCall (d : Definition) (method arg : JSON) : Except String Definition :=
  if !validMethod method then
    .error "Container.Definition.addMethodCall: Method name must be a valid string."
  else
    match d.calls with
    | some (.arr l) => .ok { d with calls := some (.arr (l ++ [.arr [method, arg]])) }
    | _ => .error "TypeError: push is not a function"

/-- `Definition.prototype.setMethodCalls`: apply `addMethodCall` to each pair in
order; the first thrown error aborts the loop, leaving the already-appended calls
in place (the returned state is the one reached so far). -/
def setMethodCalls (d : Definition) : List (JSON × JSON) → Definition × Option String
  | [] => (d, none)
  | p :: rest =>
    match addMethodCall d p.1 p.2 with
    | .ok d2 => setMethodCalls d2 rest
    | .error e => (d, some e)

/-- Whether some trace in an optional result contains a `set` call. -/
def hasSvcEmission : Option (List Emission) → Bool
  | some t => t.any (fun e => !isParamEmission e)
  | none => false

/-- The `lvlN`-projection of a numeric level (junk value 0 on non-numeric levels;
only used under the hypothesis that every level is numeric). -/
def lvlN (f : FileInfo) : Nat :=
  match f.level with
  | .num n => n
  | _ => 0

/-- Whether a descriptor's level is an actual number (as the spec's integer
`depth` requires), rather than `undefined` or `NaN`. -/
def isNumLevel (f : FileInfo) : Bool :=
  match f.level with
  | .num _ => true
  | _ => false

/-- A raw service record with every field absent. -/
def rawEmpty : RawServiceRecord :=
  { className := none, constructorMethod := none, arguments := none, calls := none,
    properties := none, isObject := none, isFunction := none, isSingleton := none, tags := none }

/-- Directory tree for the C1 failing input: root `app` holding `services.json`
and `sub/services.json`; `readdirSync` lists the root file before the
subdirectory. -/
def fsC1 : List FSEntry := [.file "services.json", .dir "sub" [.file "services.json"]]

/-- Loader for the C1 failing input: the root file sets parameter `x` to 1, the
deeper file sets `x` to 2. -/
def loadC1 : String → Option ConfigRecord := fun p =>
  if p == "app/services.json" then
    some { ns := none, imports := [], parameters := [("x", .num 1)], services := [] }
  else if p == "app/sub/services.json" then
    some { ns := none, imports := [], parameters := [("x", .num 2)], services := [] }
  else none

/-- Directory tree for the C2 failing input (same shape as C1: one root file,
one file in a subdirectory). -/
def fsC2 : List FSEntry := [.file "services.json", .dir "sub" [.file "services.json"]]

/-- Directory tree for the C3 counterexample: the root contains only a
`node_modules` directory holding a `services.json`. -/
def fsC3 : List FSEntry := [.dir "node_modules" [.file "services.json"]]

/-- Loader for the C3 counterexample: the `node_modules` file registers
parameter `m`. -/
def loadC3 : String → Option ConfigRecord := fun p =>
  if p == "app/node_modules/services.json" then
    some { ns := none, imports := [], parameters := [("m", .num 1)], services := [] }
  else none

/-- The options object of the C3 counterexample: `{env: "test"}` with
`ignoreNodeModulesDirectory` omitted. -/
def optsC3 : Options := { env := some "test", ignoreNodeModulesDirectory := none }

/-- Directory tree for the C3 amended-claim witness: a `node_modules` directory
and a root-level `services.json`. -/
def fsC3w : List FSEntry := [.dir "node_modules" [.file "services.json"], .file "services.json"]

/-- The descriptor discovered from `fsC3w` under the default options (the
`node_modules` directory is pruned). -/
def descC3w : FileInfo :=
  { file := "app/services.json", dir := "app", level := .undef, isEnvFile := false,
    isParamFile := false, config := none }

/-- Descriptors used by the C4 witness: two plain service files at depths 1 and 0
(discovery order deeper-last), an environment file and a parameter file. -/
def svcDeep : FileInfo :=
  { file := "a/s/services.json", dir := "a/s", level := .num 1, isEnvFile := false,
    isParamFile := false, config := none }

/-- Shallow service descriptor for the C4 witness. -/
def svcShallow : FileInfo :=
  { file := "a/services.json", dir := "a", level := .num 0, isEnvFile := false,
    isParamFile := false, config := none }

/-- Environment-service descriptor for the C4 witness. -/
def envDesc : FileInfo :=
  { file := "a/services_test.json", dir := "a", level := .num 0, isEnvFile := true,
    isParamFile := false, config := none }

/-- Parameter descriptor for the C4 witness. -/
def paramDesc : FileInfo :=
  { file := "a/parameters.json", dir := "a", level := .num 0, isEnvFile := false,
    isParamFile := true, config := none }

/-- The C4 witness input, in discovery order: shallow service file first, then
the deeper one, then the environment and parameter files. -/
def filesC4 : List FileInfo := [svcShallow, svcDeep, envDesc, paramDesc]

/-- Loader for the C5 scenario: `root/services.json` declares namespace `a` and
pulls in `./b.json`, which declares namespace `b` and defines parameter `p = 5`. -/
def loadC5 : String → Option ConfigRecord := fun p =>
  if p == "root/services.json" then
    some { ns := some "a", imports := ["./b.json"], parameters := [], services := [] }
  else if p == "root/b.json" then
    some { ns := some "b", imports := [], parameters := [("p", .num 5)], services := [] }
  else none

/-- The discovered descriptor for the C5 scenario's root file. -/
def descC5 : FileInfo :=
  { file := "root/services.json", dir := "root", level := .undef, isEnvFile := false,
    isParamFile := false, config := none }

/-- A record declaring namespace `b`, for the C5 witness of the general
composition rule. -/
def cNsB : ConfigRecord := { ns := some "b", imports := [], parameters := [], services := [] }

/-- A record declaring no namespace, for the C5 witness. -/
def cNsNone : ConfigRecord := { ns := none, imports := [], parameters := [], services := [] }

/-- Loader for the C6 witness: the file imports `./i.json` and sets its own
parameters `k = 9`; the import sets `k = 1` and `j = 3`. -/
def loadC6 : String → Option ConfigRecord := fun p =>
  if p == "r/services.json" then
    some { ns := none, imports := ["./i.json"], parameters := [("k", .num 9)], services := [] }
  else if p == "r/i.json" then
    some { ns := none, imports := [], parameters := [("k", .num 1), ("j", .num 3)],
           services := [] }
  else none

/-- The descriptor for the C6 witness file. -/
def descC6 : FileInfo :=
  { file := "r/services.json", dir := "r", level := .undef, isEnvFile := false,
    isParamFile := false, config := none }

/-- The record loaded for the C6 witness file. -/
def cC6 : ConfigRecord :=
  { ns := none, imports := ["./i.json"], parameters := [("k", .num 9)], services := [] }

/-- Loader for the C7 counterexample: a parameter file whose record has both
an import and a `services` field; the imported file defines service `s`. -/
def loadC7 : String → Option ConfigRecord := fun p =>
  if p == "r7/parameters.json" then
    some { ns := none, imports := ["./x.json"], parameters := [],
           services := [("own", rawEmpty)] }
  else if p == "r7/x.json" then
    some { ns := none, imports := [], parameters := [], services := [("s", rawEmpty)] }
  else none

/-- The Parameter-kind descriptor of the C7 counterexample. -/
def descC7 : FileInfo :=
  { file := "r7/parameters.json", dir := "r7", level := .undef, isEnvFile := false,
    isParamFile := true, config := none }

/-- Loader for the C7 amended-claim witness: a parameter file with no imports,
a parameter `p = 1` and a (never processed) service `sv`. -/
def loadC7w : String → Option ConfigRecord := fun p =>
  if p == "q/parameters.json" then
    some { ns := none, imports := [], parameters := [("p", .num 1)],
           services := [("sv", rawEmpty)] }
  else none

/-- The Parameter-kind descriptor of the C7 amended-claim witness. -/
def descC7w : FileInfo :=
  { file := "q/parameters.json", dir := "q", level := .undef, isEnvFile := false,
    isParamFile := true, config := none }

/-- The record loaded for the C7 amended-claim witness. -/
def cC7w : ConfigRecord :=
  { ns := none, imports := [], parameters := [("p", .num 1)], services := [("sv", rawEmpty)] }

/-- A raw record with an explicit `isSingleton: false`, for the C8 witness. -/
def rawExplicitFalse : RawServiceRecord := { rawEmpty with isSingleton := some (.bool false) }

/-- The method-call batch of the C9 witness: a valid call, an invalid (numeric)
method name, then a further valid call that is never applied. -/
def pairsC9 : List (JSON × JSON) :=
  [(.str "init", .arr [.num 1]), (.num 5, .null), (.str "start", .arr [])]

/- ### Helper lemmas -/

theorem mem_foldl_append {α β : Type} (h : β → List α) (l : List β) (acc : List α) (x : α) :
    x ∈ l.foldl (fun a e => a ++ h e) acc ↔ x ∈ acc ∨ ∃ e ∈ l, x ∈ h e := by
  induction l generalizing acc with
  | nil => simp
  | cons e rest ih =>
    simp only [List.foldl_cons, ih, List.mem_append]
    constructor
    · rintro ((hx | hx) | ⟨e', he', hx⟩)
      · exact Or.inl hx
      · exact Or.inr ⟨e, List.mem_cons_self e rest, hx⟩
      · exact Or.inr ⟨e', List.mem_cons_of_mem e he', hx⟩
    · rintro (hx | ⟨e', he', hx⟩)
      · exact Or.inl (Or.inl hx)
      · rcases List.mem_cons.mp he' with rfl | he''
        · exact Or.inl (Or.inr hx)
        · exact Or.inr ⟨e', he'', hx⟩

theorem findServiceJsonFiles_succ (o : Options) (fuel : Nat) (path : String)
    (entries : List FSEntry) (level : JSNum) :
    findServiceJsonFiles o (fuel + 1) path entries level =
      entries.foldl (fun acc e =>
        acc ++ walkStep o (fun p en lv => findServiceJsonFiles o fuel p en lv) path level e) [] :=
  rfl

theorem mem_findServiceJsonFiles (o : Options) (fuel : Nat) (path : String)
    (entries : List FSEntry) (level : JSNum) (fi : FileInfo) :
    fi ∈ findServiceJsonFiles o (fuel + 1) path entries level ↔
      ∃ e ∈ entries,
        fi ∈ walkStep o (fun p en lv => findServiceJsonFiles o fuel p en lv) path level e := by
  rw [findServiceJsonFiles_succ, mem_foldl_append]
  simp

theorem insertSorted_perm (x : FileInfo) : ∀ l : List FileInfo, (insertSorted x l).Perm (x :: l)
  | [] => List.Perm.refl _
  | y :: ys => by
    unfold insertSorted
    split
    · exact List.Perm.refl _
    · exact (((insertSorted_perm x ys).cons y).trans (List.Perm.swap x y ys))

theorem jsSort_folder_perm :
    ∀ (l acc : List FileInfo), ((l.foldl (fun a x => insertSorted x a) acc)).Perm (acc ++ l)
  | [], acc => by simp
  | x :: rest, acc => by
    simp only [List.foldl_cons]
    refine (jsSort_folder_perm rest (insertSorted x acc)).trans ?_
    have h1 : (insertSorted x acc ++ rest).Perm ((x :: acc) ++ rest) :=
      (insertSorted_perm x acc).append (List.Perm.refl rest)
    exact h1.trans List.perm_middle.symm

theorem jsSort_perm (l : List FileInfo) : (jsSort l).Perm l := by
  simpa using jsSort_folder_perm l []

theorem kinds_filter_perm (files : List FileInfo) :
    (files.filter isServiceKind ++ files.filter isEnvKind ++ files.filter isParamKind).Perm
      files := by
  induction files with
  | nil => simp
  | cons f rest ih =>
    by_cases he : f.isEnvFile
    · have h1 : isServiceKind f = false := by simp [isServiceKind, he]
      have h2 : isEnvKind f = true := by simp [isEnvKind, he]
      have h3 : isParamKind f = false := by simp [isParamKind, he]
      simp only [List.filter_cons, h1, h2, h3, if_true, if_false, Bool.false_eq_true]
      refine List.Perm.trans ?_ (ih.cons f)
      have : rest.filter isServiceKind ++ f :: rest.filter isEnvKind ++ rest.filter isParamKind
          = rest.filter isServiceKind ++
              (f :: (rest.filter isEnvKind ++ rest.filter isParamKind)) := by
        simp [List.append_assoc]
      rw [this]
      exact List.perm_middle.trans (by simp [List.append_assoc])
    · by_cases hp : f.isParamFile
      · have h1 : isServiceKind f = false := by simp [isServiceKind, he, hp]
        have h2 : isEnvKind f = false := by simp [isEnvKind, he]
        have h3 : isParamKind f = true := by simp [isParamKind, he, hp]
        simp only [List.filter_cons, h1, h2, h3, if_true, if_false, Bool.false_eq_true]
        refine List.Perm.trans ?_ (ih.cons f)
        have hmid : (rest.filter isEnvKind ++ f :: rest.filter isParamKind).Perm
            (f :: (rest.filter isEnvKind ++ rest.filter isParamKind)) := List.perm_middle
        have := (List.Perm.append_left (rest.filter isServiceKind) hmid)
        refine List.Perm.trans (by simpa [List.append_assoc] using this) ?_
        exact List.perm_middle.trans (by simp [List.append_assoc])
      · have h1 : isServiceKind f = true := by simp [isServiceKind, he, hp]
        have h2 : isEnvKind f = false := by simp [isEnvKind, he]
        have h3 : isParamKind f = false := by simp [isParamKind, he, hp]
        simp only [List.filter_cons, h1, h2, h3, if_true, if_false, Bool.false_eq_true]
        exact ih.cons f

theorem sortFunc_num (m n : Nat) (a b : FileInfo) (ha : a.level = JSNum.num m)
    (hb : b.level = JSNum.num n) : sortFunc a b = decide (m < n) := by
  simp [sortFunc, jsLt, ha, hb]

theorem isNumLevel_iff (f : FileInfo) : isNumLevel f = true ↔ ∃ n, f.level = JSNum.num n := by
  unfold isNumLevel
  cases h : f.level <;> simp [h]

theorem lvlN_eq (f : FileInfo) (n : Nat) (h : f.level = JSNum.num n) : lvlN f = n := by
  simp [lvlN, h]

theorem insertSorted_props (x : FileInfo) (hx : isNumLevel x = true) :
    ∀ l : List FileInfo, l.all isNumLevel = true →
      l.Pairwise (fun a b => lvlN b ≤ lvlN a) →
      ((insertSorted x l).all isNumLevel = true ∧
        (insertSorted x l).Pairwise (fun a b => lvlN b ≤ lvlN a) ∧
        ∀ v : Nat, (insertSorted x l).filter (fun f => f.level == JSNum.num v) =
          l.filter (fun f => f.level == JSNum.num v) ++
            (if x.level == JSNum.num v then [x] else [])) := by
  intro l
  induction l with
  | nil =>
    intro _ _
    refine ⟨by simp [insertSorted, hx], by simp [insertSorted], ?_⟩
    intro v
    by_cases hv : (x.level == JSNum.num v) <;> simp [insertSorted, List.filter_cons, hv]
  | cons y ys ih =>
    intro hall hpair
    obtain ⟨m, hm⟩ := (isNumLevel_iff x).mp hx
    have hy : isNumLevel y = true := List.all_eq_true.mp hall y (List.mem_cons_self y ys)
    have hys : ys.all isNumLevel = true := by
      rw [List.all_eq_true]
      intro z hz
      exact List.all_eq_true.mp hall z (List.mem_cons_of_mem y hz)
    rw [List.pairwise_cons] at hpair
    obtain ⟨hpy, hpys⟩ := hpair
    unfold insertSorted
    by_cases hcond : ((y :: ys).all fun z => sortFunc z x) = true
    · rw [if_pos hcond]
      have hlt : ∀ z ∈ y :: ys, lvlN z < lvlN x := by
        intro z hz
        obtain ⟨q, hq⟩ := (isNumLevel_iff z).mp (List.all_eq_true.mp hall z hz)
        have hzx := List.all_eq_true.mp hcond z hz
        rw [sortFunc_num q m z x hq hm] at hzx
        rw [lvlN_eq z q hq, lvlN_eq x m hm]
        exact of_decide_eq_true hzx
      refine ⟨by simp [hx, hall], ?_, ?_⟩
      · exact List.Pairwise.cons (fun z hz => le_of_lt (hlt z hz))
          (List.pairwise_cons.mpr ⟨hpy, hpys⟩)
      · intro v
        by_cases hv : (x.level == JSNum.num v)
        · have hvv : x.level = JSNum.num v := by exact_mod_cast beq_iff_eq.mp hv
          have hmv : m = v := by rw [hm] at hvv; cases hvv; rfl
          have hnil : (y :: ys).filter (fun f => f.level == JSNum.num v) = [] := by
            rw [List.filter_eq_nil_iff]
            intro z hz
            obtain ⟨q, hq⟩ := (isNumLevel_iff z).mp (List.all_eq_true.mp hall z hz)
            have := hlt z hz
            rw [lvlN_eq z q hq, lvlN_eq x m hm] at this
            simp [hq]
            intro hcontra
            rw [hcontra] at this
            omega
          simp [List.filter_cons, hv, hnil]
        · simp [List.filter_cons, hv]
    · rw [if_neg hcond]
      obtain ⟨ia, ip, ifil⟩ := ih hys hpys
      have hxy : lvlN x ≤ lvlN y := by
        obtain ⟨w, hw, hwp⟩ := List.all_eq_false.mp (Bool.eq_false_iff.mpr hcond)
        obtain ⟨q, hq⟩ := (isNumLevel_iff w).mp (List.all_eq_true.mp hall w hw)
        rw [sortFunc_num q m w x hq hm] at hwp
        have hmq : m ≤ q := by
          by_contra hc
          exact hwp (decide_eq_true (by omega))
        have hxw : lvlN x ≤ lvlN w := by rw [lvlN_eq x m hm, lvlN_eq w q hq]; exact hmq
        rcases List.mem_cons.mp hw with rfl | hwys
        · exact hxw
        · exact le_trans hxw (hpy w hwys)
      refine ⟨by simp [hy, ia], ?_, ?_⟩
      · refine List.Pairwise.cons ?_ ip
        intro z hz
        have hz' : z ∈ x :: ys := (insertSorted_perm x ys).mem_iff.mp hz
        rcases List.mem_cons.mp hz' with rfl | hzys
        · exact hxy
        · exact hpy z hzys
      · intro v
        simp only [List.filter_cons, ifil v]
        by_cases hyv : (y.level == JSNum.num v) <;> simp [hyv]

theorem jsSort_folder_props :
    ∀ (l acc : List FileInfo), l.all isNumLevel = true → acc.all isNumLevel = true →
      acc.Pairwise (fun a b => lvlN b ≤ lvlN a) →
      ((l.foldl (fun a x => insertSorted x a) acc).all isNumLevel = true ∧
        (l.foldl (fun a x => insertSorted x a) acc).Pairwise (fun a b => lvlN b ≤ lvlN a) ∧
        ∀ v : Nat,
          (l.foldl (fun a x => insertSorted x a) acc).filter (fun f => f.level == JSNum.num v) =
            acc.filter (fun f => f.level == JSNum.num v) ++
              l.filter (fun f => f.level == JSNum.num v)) := by
  intro l
  induction l with
  | nil =>
    intro acc _ ha hp
    exact ⟨ha, hp, by simp⟩
  | cons x rest ih =>
    intro acc hall ha hp
    have hx : isNumLevel x = true := List.all_eq_true.mp hall x (List.mem_cons_self x rest)
    have hrest : rest.all isNumLevel = true := by
      rw [List.all_eq_true]
      intro z hz
      exact List.all_eq_true.mp hall z (List.mem_cons_of_mem x hz)
    obtain ⟨ia, ip, ifil⟩ := insertSorted_props x hx acc ha hp
    obtain ⟨ra, rp, rfil⟩ := ih (insertSorted x acc) hrest ia ip
    refine ⟨ra, rp, ?_⟩
    intro v
    simp only [List.foldl_cons, rfil v, ifil v, List.filter_cons]
    by_cases hv : (x.level == JSNum.num v) <;> simp [hv, List.append_assoc]

theorem jsSort_pairwise_and_stable (l : List FileInfo) (h : l.all isNumLevel = true) :
    (jsSort l).Pairwise (fun a b => lvlN b ≤ lvlN a) ∧
      ∀ v : Nat, (jsSort l).filter (fun f => f.level == JSNum.num v) =
        l.filter (fun f => f.level == JSNum.num v) := by
  obtain ⟨_, p, f⟩ := jsSort_folder_props l [] h (by simp) (by simp)
  exact ⟨p, fun v => by simpa using f v⟩

theorem all_filter_of_all (p q : FileInfo → Bool) (l : List FileInfo) (h : l.all q = true) :
    (l.filter p).all q = true := by
  rw [List.all_eq_true]
  intro x hx
  exact List.all_eq_true.mp h x (List.mem_filter.mp hx).1

theorem replaySink_append (s : Sink) (a b : List Emission) :
    replaySink s (a ++ b) = replaySink (replaySink s a) b :=
  List.foldl_append _ _ _ _

theorem replaySink_params (n : String) :
    ∀ (t : List Emission) (s : Sink),
      (replaySink s t).params n = (finalParamValue t n).or (s.params n) := by
  intro t
  induction t with
  | nil => intro s; rfl
  | cons e rest ih =>
    intro s
    cases e with
    | param k v =>
      show (replaySink (applyEmission s (.param k v)) rest).params n = _
      rw [ih]
      by_cases hk : k = n
      · subst hk
        simp [applyEmission, finalParamValue, Option.or_assoc]
      · have h1 : (n == k) = false := by simp [beq_iff_eq]; exact fun hh => hk hh.symm
        have h2 : (k == n) = false := by simp [beq_iff_eq, hk]
        have hk' : ¬n = k := fun hh => hk hh.symm
        simp [applyEmission, finalParamValue, h1, h2, hk']
    | svc k d =>
      show (replaySink (applyEmission s (.svc k d)) rest).params n = _
      rw [ih]
      simp [applyEmission, finalParamValue]

theorem replaySink_svcs_of_params :
    ∀ (t : List Emission), t.all isParamEmission = true →
      ∀ s : Sink, (replaySink s t).svcs = s.svcs := by
  intro t
  induction t with
  | nil => intro _ s; rfl
  | cons e rest ih =>
    intro h s
    cases e with
    | param k v =>
      have hrest : rest.all isParamEmission = true := by
        rw [List.all_eq_true]
        intro z hz
        exact List.all_eq_true.mp h z (List.mem_cons_of_mem _ hz)
      show (replaySink (applyEmission s (.param k v)) rest).svcs = s.svcs
      rw [ih hrest]
      rfl
    | svc k d =>
      exfalso
      have := List.all_eq_true.mp h _ (List.mem_cons_self _ rest)
      simp [isParamEmission] at this

theorem setMethodCalls_spec :
    ∀ (pairs : List (JSON × JSON)) (d : Definition) (cl : List JSON),
      d.calls = some (.arr cl) →
      ((setMethodCalls d pairs).1.calls =
        some (.arr (cl ++ (pairs.takeWhile (fun p => validMethod p.1)).map
          (fun p => JSON.arr [p.1, p.2]))) ∧
        ((setMethodCalls d pairs).2 = none ↔ pairs.all (fun p => validMethod p.1) = true)) := by
  intro pairs
  induction pairs with
  | nil =>
    intro d cl h
    exact ⟨by simpa [setMethodCalls] using h, by simp [setMethodCalls]⟩
  | cons p rest ih =>
    intro d cl h
    by_cases hv : validMethod p.1 = true
    · have hadd : addMethodCall d p.1 p.2 =
          .ok { d with calls := some (.arr (cl ++ [.arr [p.1, p.2]])) } := by
        simp [addMethodCall, hv, h]
      obtain ⟨ih1, ih2⟩ := ih { d with calls := some (.arr (cl ++ [.arr [p.1, p.2]])) }
        (cl ++ [.arr [p.1, p.2]]) rfl
      constructor
      · show (setMethodCalls d (p :: rest)).1.calls = _
        rw [setMethodCalls, hadd]
        rw [ih1]
        simp [List.takeWhile_cons, hv, List.append_assoc]
      · show (setMethodCalls d (p :: rest)).2 = none ↔ _
        rw [setMethodCalls, hadd]
        simp only [List.all_cons, hv, Bool.true_and]
        exact ih2
    · have hadd : addMethodCall d p.1 p.2 =
          .error "Container.Definition.addMethodCall: Method name must be a valid string." := by
        simp [addMethodCall, hv]
      constructor
      · show (setMethodCalls d (p :: rest)).1.calls = _
        rw [setMethodCalls, hadd]
        simp [List.takeWhile_cons, hv, h]
      · show (setMethodCalls d (p :: rest)).2 = none ↔ _
        rw [setMethodCalls, hadd]
        simp [List.all_cons, hv]

/- ### Claim theorems -/

/-- C1 (code bug): the claim says that in a single build, of two discovered
Service-kind descriptors at different depths, the deeper one is resolved strictly
before the shallower one, so the shallower one's same-named parameter wins.  The
code calls `findServiceJsonFiles(rootdirectory)` without the `level` argument, so
levels are `undefined`/`NaN`, every `sortFunc` comparison is false, and the sort
leaves discovery order.  On a root `app` whose `services.json` sets `x = 1` and
whose deeper `sub/services.json` sets `x = 2`, the shallow file is processed
first and the deeper file's value `2` wins — the opposite of the claim (and of
the code's own doc comments). -/
theorem c1_level_undefined_breaks_depth_order :
    ((sortFilesByHierarchy (findServiceJsonFiles defaultOptions 3 "app" fsC1 JSNum.undef)).map
      (fun f => (f.file, f.level)) =
      [("app/services.json", JSNum.undef), ("app/sub/services.json", JSNum.nan)]) ∧
    ((buildContainer loadC1 fsC1 initialBuilder "app" none 3).2.map (fun s => s.params "x")) =
      some (some (.num 2)) :=
  ⟨rfl, rfl⟩

/-- C2 (code bug): the claim says discovery started from `buildContainer`'s root
gives every descriptor an integer depth (0 at the root, +1 per subdirectory).
Because `buildContainer` omits the `level` argument, the root file's descriptor
carries `undefined` and the subdirectory file's carries `NaN`; no descriptor has
a numeric level at all. -/
theorem c2_discovery_levels_not_integer_depths :
    ((findServiceJsonFiles defaultOptions 3 "app" fsC2 JSNum.undef).map
      (fun f => (f.file, f.level)) =
      [("app/services.json", JSNum.undef), ("app/sub/services.json", JSNum.nan)]) ∧
    ((findServiceJsonFiles defaultOptions 3 "app" fsC2 JSNum.undef).all isNumLevel = false) :=
  ⟨rfl, rfl⟩

/-- C3 (counterexample): the claim says that for `buildContainer(root, {env: "test"})`
the documented default `ignoreNodeModulesDirectory: true` applies, pruning every
`node_modules` directory.  In the code a provided options object replaces the
stored options wholesale, so the omitted flag is `undefined` (falsy) and the walk
descends into `node_modules`: the file there is discovered and its parameter `m`
is registered. -/
theorem c3_counterexample_node_modules_not_pruned :
    ((findServiceJsonFiles optsC3 2 "app" fsC3 JSNum.undef).map (fun f => f.file) =
      ["app/node_modules/services.json"]) ∧
    ((buildContainer loadC3 fsC3 initialBuilder "app" (some optsC3) 3).2.map
      (fun s => s.params "m")) = some (some (.num 1)) :=
  ⟨rfl, rfl⟩

/-- C3 (amended): the documented defaults apply only when the whole `options`
argument is omitted (then the stored options — initially the defaults — are
used, which is what `buildContainer b root none` computes).  Under any options
with falsy `env` no EnvironmentService descriptor is produced, and under any
options with truthy `ignoreNodeModulesDirectory` every discovered descriptor
lives either directly in the scanned root or in a directory whose path does not
contain `node_modules`. -/
theorem c3_amended_defaults_only_when_options_omitted :
    (∀ (o : Options), envTruthy o = false →
      ∀ (fuel : Nat) (path : String) (entries : List FSEntry) (level : JSNum) (fi : FileInfo),
        fi ∈ findServiceJsonFiles o fuel path entries level → fi.isEnvFile = false) ∧
    (∀ (o : Options), ignoreNodeModulesTruthy o = true →
      ∀ (fuel : Nat) (path : String) (entries : List FSEntry) (level : JSNum) (fi : FileInfo),
        fi ∈ findServiceJsonFiles o fuel path entries level →
          fi.dir = path ∨ strContains fi.dir "node_modules" = false) ∧
    (∀ (load : String → Option ConfigRecord) (fs : List FSEntry) (root : String) (fuel : Nat),
      buildContainer load fs initialBuilder root none fuel =
        buildContainer load fs initialBuilder root (some defaultOptions) fuel) ∧
    (envTruthy defaultOptions = false ∧ ignoreNodeModulesTruthy defaultOptions = true) := by
  refine ⟨?_, ?_, ?_, rfl, rfl⟩
  · intro o henv fuel
    induction fuel with
    | zero =>
      intro path entries level fi hmem
      simp [findServiceJsonFiles] at hmem
    | succ fuel ih =>
      intro path entries level fi hmem
      rw [mem_findServiceJsonFiles] at hmem
      obtain ⟨e, _, hin⟩ := hmem
      cases e with
      | dir name sub =>
        simp only [walkStep] at hin
        split at hin
        · exact ih _ _ _ _ hin
        · simp at hin
      | file name =>
        simp only [walkStep, henv, Bool.false_and] at hin
        split_ifs at hin <;> simp_all
  · intro o hig fuel
    induction fuel with
    | zero =>
      intro path entries level fi hmem
      simp [findServiceJsonFiles] at hmem
    | succ fuel ih =>
      intro path entries level fi hmem
      rw [mem_findServiceJsonFiles] at hmem
      obtain ⟨e, _, hin⟩ := hmem
      cases e with
      | dir name sub =>
        simp only [walkStep, hig, Bool.not_true, Bool.false_or] at hin
        split at hin
        · rename_i hcond
          have hcont : strContains (path ++ "/" ++ name) "node_modules" = false := by
            simpa using hcond
          rcases ih _ _ _ _ hin with hdir | hdir
          · exact Or.inr (hdir ▸ hcont)
          · exact Or.inr hdir
        · simp at hin
      | file name =>
        simp only [walkStep] at hin
        split_ifs at hin <;> simp_all
  · intro load fs root fuel
    rfl

/-- C3 amended-claim witness: the concrete descriptor discovered from `fsC3w`
under the default options is not an environment file, lies outside any
`node_modules` directory, and a `buildContainer` call omitting options on a
fresh builder coincides with one passing the defaults explicitly. -/
theorem c3_amended_witness :
    descC3w.isEnvFile = false ∧
    (descC3w.dir = "app" ∨ strContains descC3w.dir "node_modules" = false) ∧
    buildContainer loadC3 fsC3 initialBuilder "app" none 3 =
      buildContainer loadC3 fsC3 initialBuilder "app" (some defaultOptions) 3 := by
  have h := c3_amended_defaults_only_when_options_omitted
  have hmem : descC3w ∈ findServiceJsonFiles defaultOptions 2 "app" fsC3w JSNum.undef := by
    rw [(rfl : findServiceJsonFiles defaultOptions 2 "app" fsC3w JSNum.undef = [descC3w])]
    exact List.mem_singleton.mpr rfl
  exact ⟨h.1 defaultOptions rfl 2 "app" fsC3w JSNum.undef descC3w hmem,
    h.2.1 defaultOptions rfl 2 "app" fsC3w JSNum.undef descC3w hmem,
    h.2.2.1 loadC3 fsC3 "app" 3⟩

/-- C4: `sortFilesByHierarchy` is a pure reordering (a permutation of its input,
nothing dropped or added) and equals the sorted Service group, followed by the
sorted EnvironmentService group, followed by the Parameter group in its original
discovery order; on descriptors whose depths are actual integers (as the spec's
data model prescribes) both sorted groups are ordered deeper-first and are
stable (the descriptors of each fixed depth keep their discovery order). -/
theorem c4_sort_permutation_groups_depth_sorted (files : List FileInfo)
    (h : files.all isNumLevel = true) :
    (sortFilesByHierarchy files).Perm files ∧
    sortFilesByHierarchy files =
      jsSort (files.filter isServiceKind) ++ jsSort (files.filter isEnvKind) ++
        files.filter isParamKind ∧
    (jsSort (files.filter isServiceKind)).Pairwise (fun a b => lvlN b ≤ lvlN a) ∧
    (jsSort (files.filter isEnvKind)).Pairwise (fun a b => lvlN b ≤ lvlN a) ∧
    (∀ v : Nat, (jsSort (files.filter isServiceKind)).filter (fun f => f.level == JSNum.num v) =
      (files.filter isServiceKind).filter (fun f => f.level == JSNum.num v)) ∧
    (∀ v : Nat, (jsSort (files.filter isEnvKind)).filter (fun f => f.level == JSNum.num v) =
      (files.filter isEnvKind).filter (fun f => f.level == JSNum.num v)) := by
  have hs := jsSort_pairwise_and_stable (files.filter isServiceKind)
    (all_filter_of_all _ _ _ h)
  have he := jsSort_pairwise_and_stable (files.filter isEnvKind)
    (all_filter_of_all _ _ _ h)
  refine ⟨?_, rfl, hs.1, he.1, hs.2, he.2⟩
  unfold sortFilesByHierarchy
  exact (((jsSort_perm _).append (jsSort_perm _)).append (List.Perm.refl _)).trans
    (kinds_filter_perm files)

/-- C4 witness: on the concrete descriptor list `filesC4` (shallow service file
discovered first), the sort is a permutation, the service group comes out
deeper-first, depth-0 descriptors keep their order, and the concrete output is
the deeper service file, the shallower one, the environment file, then the
parameter file. -/
theorem c4_witness :
    (sortFilesByHierarchy filesC4).Perm filesC4 ∧
    (jsSort (filesC4.filter isServiceKind)).Pairwise (fun a b => lvlN b ≤ lvlN a) ∧
    ((jsSort (filesC4.filter isServiceKind)).filter (fun f => f.level == JSNum.num 0) =
      (filesC4.filter isServiceKind).filter (fun f => f.level == JSNum.num 0)) ∧
    sortFilesByHierarchy filesC4 = [svcDeep, svcShallow, envDesc, paramDesc] := by
  have h := c4_sort_permutation_groups_depth_sorted filesC4 rfl
  exact ⟨h.1, h.2.2.1, h.2.2.2.2.1 0, rfl⟩

/-- C5: resolving a file that declares namespace `a` and imports a file that
declares namespace `b` defining parameter `p = 5` emits exactly
`setParameter("a.b.p", 5)`; in general the effective namespace is
`inherited ++ "." ++ recordNamespace` when the inherited namespace is nonempty,
else just `recordNamespace`, and a record declaring no namespace keeps the
inherited namespace unchanged. -/
theorem c5_namespace_composition :
    (parseFile loadC5 2 descC5 "" = some [.param "a.b.p" (.num 5)]) ∧
    ((replaySink emptySink [Emission.param "a.b.p" (.num 5)]).params "a.b.p" =
      some (.num 5)) ∧
    (∀ (inh : String) (c : ConfigRecord) (n : String),
      c.ns = some n → (n == "") = false →
      effectiveNs inh c = if inh == "" then n else inh ++ "." ++ n) ∧
    (∀ (inh : String) (c : ConfigRecord), c.ns = none → effectiveNs inh c = inh) := by
  refine ⟨rfl, rfl, ?_, ?_⟩
  · intro inh c n hns hne
    simp [effectiveNs, hns, hne]
  · intro inh c hns
    simp [effectiveNs, hns]

/-- C5 witness: the composition rule evaluated at inherited namespace `a` with
record namespace `b`, and at inherited namespace `q` with no record namespace. -/
theorem c5_witness :
    effectiveNs "a" cNsB = "a.b" ∧ effectiveNs "q" cNsNone = "q" := by
  have h := c5_namespace_composition
  exact ⟨(h.2.2.1 "a" cNsB "b" rfl rfl).trans (by rfl), h.2.2.2 "q" cNsNone rfl⟩

/-- C6: when a descriptor resolves successfully, its emission trace is exactly
the concatenation of its imports' (recursive, declared-order) traces followed by
its own parameter emissions and then its own service emissions — so every import
emission happens strictly before any of the file's own `setParameter`/`set`
calls, and whenever the file's own part determines the final value of a
parameter, that value is what any sink holds after replaying the whole trace
(the file's own entries override its imports under last-write-wins). -/
theorem c6_imports_before_own_entries (load : String → Option ConfigRecord) (fuel : Nat)
    (fi : FileInfo) (inherited : String) (c : ConfigRecord) (ti : List Emission)
    (hc : configOf load fi = some c)
    (hti : parseImportsList (fun fj nsj => parseFile load fuel fj nsj) fi
      (effectiveNs inherited c) c.imports = some ti) :
    parseFile load (fuel + 1) fi inherited =
      some (ti ++ (paramEmissions (modNs (effectiveNs inherited c)) c ++
        serviceEmissions fi (modNs (effectiveNs inherited c)) (effectiveNs inherited c) c)) ∧
    ∀ (n : String) (v : JSON) (s : Sink),
      finalParamValue (paramEmissions (modNs (effectiveNs inherited c)) c ++
        serviceEmissions fi (modNs (effectiveNs inherited c)) (effectiveNs inherited c) c) n =
        some v →
      Sink.params (replaySink s (ti ++ (paramEmissions (modNs (effectiveNs inherited c)) c ++
        serviceEmissions fi (modNs (effectiveNs inherited c)) (effectiveNs inherited c) c)))
        n = some v := by
  constructor
  · simp only [parseFile, hc, hti, List.append_assoc]
  · intro n v s hfin
    rw [replaySink_append, replaySink_params, hfin]
    rfl

/-- C6 witness: the file `r/services.json` imports `./i.json` (which sets
`k = 1` and `j = 3`) and itself sets `k = 9`; the resolved trace lists
the imported file's emissions first and replaying it leaves the file's own
value `9` registered for `k`. -/
theorem c6_witness :
    parseFile loadC6 2 descC6 "" =
      some [Emission.param "k" (.num 1), Emission.param "j" (.num 3),
        Emission.param "k" (.num 9)] ∧
    (replaySink emptySink [Emission.param "k" (.num 1), Emission.param "j" (.num 3),
      Emission.param "k" (.num 9)]).params "k" = some (.num 9) := by
  have h := c6_imports_before_own_entries loadC6 1 descC6 "" cC6
    [Emission.param "k" (.num 1), Emission.param "j" (.num 3)] rfl rfl
  exact ⟨h.1, h.2 "k" (.num 9) emptySink rfl⟩

/-- C7 (counterexample): the claim says a Parameter-kind descriptor whose record
also contains a `services` field never causes any `set()` call and leaves the
sink's definitions unchanged.  But imports are resolved through a synthesized
descriptor whose `isParamFile` is absent (falsy), so resolving
`r7/parameters.json` — which imports `./x.json` defining service `s` — does emit
a `set("s", …)` call and does change the sink's definitions. -/
theorem c7_counterexample_import_services_emitted :
    descC7.isParamFile = true ∧
    ((configOf loadC7 descC7).map (fun c => c.services.length)) = some 1 ∧
    hasSvcEmission (parseFile loadC7 2 descC7 "") = true ∧
    ((parseFile loadC7 2 descC7 "").map
      (fun t => ((replaySink emptySink t).svcs "s").isSome)) = some true :=
  ⟨rfl, rfl, rfl, rfl⟩

/-- C7 (amended): a Parameter-kind descriptor's **own** `services` field is never
processed: when its record has no imports, its whole trace consists of
`setParameter` emissions only, and replaying it leaves the sink's definitions
map completely unchanged.  (`set()` calls can still arise from its imports,
which are resolved without the Parameter flag.) -/
theorem c7_amended_own_services_never_processed (load : String → Option ConfigRecord)
    (fuel : Nat) (fi : FileInfo) (inherited : String) (c : ConfigRecord) (t : List Emission)
    (hp : fi.isParamFile = true) (hc : configOf load fi = some c) (hi : c.imports = [])
    (ht : parseFile load (fuel + 1) fi inherited = some t) :
    t.all isParamEmission = true ∧ ∀ s : Sink, (replaySink s t).svcs = s.svcs := by
  have hT : t = paramEmissions (modNs (effectiveNs inherited c)) c := by
    simp only [parseFile, hc, hi, parseImportsList, serviceEmissions, hp, if_true,
      List.nil_append, List.append_nil, Option.some.injEq] at ht
    exact ht.symm
  have hall : t.all isParamEmission = true := by
    rw [hT]
    rw [List.all_eq_true]
    intro e he
    obtain ⟨p, _, rfl⟩ := List.mem_map.mp he
    rfl
  exact ⟨hall, fun s => replaySink_svcs_of_params t hall s⟩

/-- C7 amended-claim witness: the import-free parameter file `q/parameters.json`
(whose record does contain a `services` field) resolves to a parameter-only
trace that leaves the empty sink's definitions unchanged. -/
theorem c7_amended_witness :
    ([Emission.param "p" (JSON.num 1)].all isParamEmission = true) ∧
    (replaySink emptySink [Emission.param "p" (JSON.num 1)]).svcs = emptySink.svcs := by
  have h := c7_amended_own_services_never_processed loadC7w 0 descC7w "" cC7w
    [Emission.param "p" (JSON.num 1)] rfl rfl rfl rfl
  exact ⟨h.1, h.2 emptySink⟩

/-- C8: normalization defaults `isSingleton` to `true` exactly when the raw
record has no such field, preserves any explicit value (in particular
`isSingleton: false`), and defaults `tags` to the empty sequence when the record
omits it — so neither field is ever left undefined (raw records are parsed JSON
and contain no `undefined`). -/
theorem c8_normalization_defaults (rc : RawServiceRecord) (dir ns : String) :
    (rc.isSingleton = none → (buildDefinition rc dir ns).isSingleton = .bool true) ∧
    (rc.isSingleton = some (.bool false) →
      (buildDefinition rc dir ns).isSingleton = .bool false) ∧
    (∀ j : JSON, rc.isSingleton = some j → (buildDefinition rc dir ns).isSingleton = j) ∧
    (rc.tags = none → (buildDefinition rc dir ns).tags = .arr []) := by
  refine ⟨?_, ?_, ?_, ?_⟩
  · intro h
    simp [buildDefinition, h]
  · intro h
    simp [buildDefinition, h]
  · intro j h
    simp [buildDefinition, h]
  · intro h
    simp [buildDefinition, h]

/-- C8 witness: the record omitting every field normalizes to `isSingleton = true`
and `tags = []`; the record with explicit `isSingleton: false` keeps `false`. -/
theorem c8_witness :
    (buildDefinition rawEmpty "d" "n").isSingleton = JSON.bool true ∧
    (buildDefinition rawExplicitFalse "d" "n").isSingleton = JSON.bool false ∧
    (buildDefinition rawEmpty "d" "n").tags = JSON.arr [] :=
  ⟨(c8_normalization_defaults rawEmpty "d" "n").1 rfl,
    (c8_normalization_defaults rawExplicitFalse "d" "n").2.1 rfl,
    (c8_normalization_defaults rawEmpty "d" "n").2.2.2 rfl⟩

/-- C9: `addMethodCall` appends the `(method, argumentList)` pair to `calls` and
fails with the InvalidArgument-style error exactly when the method name is empty
or not a string; `setMethodCalls` applies `addMethodCall` to each pair in order,
the first failure aborts the remaining batch, and the calls appended before the
failure remain (partial application, no rollback): the surviving `calls` list is
the original one extended by exactly the longest valid prefix of the batch. -/
theorem c9_addMethodCall_setMethodCalls (d : Definition) (cl : List JSON) (m a : JSON)
    (pairs : List (JSON × JSON)) (h : d.calls = some (.arr cl)) :
    (validMethod m = true →
      addMethodCall d m a = .ok { d with calls := some (.arr (cl ++ [.arr [m, a]])) }) ∧
    (validMethod m = false →
      addMethodCall d m a =
        .error "Container.Definition.addMethodCall: Method name must be a valid string.") ∧
    ((setMethodCalls d pairs).1.calls =
      some (.arr (cl ++ (pairs.takeWhile (fun p => validMethod p.1)).map
        (fun p => JSON.arr [p.1, p.2])))) ∧
    ((setMethodCalls d pairs).2 = none ↔ pairs.all (fun p => validMethod p.1) = true) := by
  obtain ⟨h1, h2⟩ := setMethodCalls_spec pairs d cl h
  refine ⟨?_, ?_, h1, h2⟩
  · intro hv
    simp [addMethodCall, hv, h]
  · intro hv
    simp [addMethodCall, hv]

/-- C9 witness: on a fresh `Definition`, a valid `addMethodCall` appends its
pair; the batch `pairsC9` (valid, invalid, valid) stops at the invalid pair with
the first call still appended, and it reports an error. -/
theorem c9_witness :
    (addMethodCall newDefinition (.str "init") (.arr [.num 1]) =
      .ok { newDefinition with calls := some (.arr [.arr [.str "init", .arr [.num 1]]]) }) ∧
    ((setMethodCalls newDefinition pairsC9).1.calls =
      some (.arr [.arr [.str "init", .arr [.num 1]]])) ∧
    ((setMethodCalls newDefinition pairsC9).2 = none ↔
      pairsC9.all (fun p => validMethod p.1) = true) := by
  have h := c9_addMethodCall_setMethodCalls newDefinition [] (.str "init") (.arr [.num 1])
    pairsC9 rfl
  exact ⟨h.1 rfl, h.2.2.1, h.2.2.2⟩

/-- C10 (implicit): `buildContainer` with any provided options object replaces
the builder's stored options wholesale and permanently: after such a call the
stored options are exactly the provided object, and any subsequent
`buildContainer` on the same builder that omits options behaves exactly as if
the previous call's options object had been passed again (rather than the
documented defaults). -/
theorem c10_options_replaced_wholesale (load load2 : String → Option ConfigRecord)
    (fs fs2 : List FSEntry) (b : BuilderState) (root root2 : String) (o : Options)
    (fuel fuel2 : Nat) :
    (buildContainer load fs b root (some o) fuel).1.options = o ∧
    buildContainer load2 fs2 (buildContainer load fs b root (some o) fuel).1 root2 none fuel2 =
      buildContainer load2 fs2 (buildContainer load fs b root (some o) fuel).1 root2 (some o)
        fuel2 :=
  ⟨rfl, rfl⟩

end SC
